import Mathlib

/-!
Verification development for the enrichment pipeline of
`backend/utils/parse_simplify.py` (jobs.kaplabs.dev).

The Python module is shallowly embedded: each class `process` method becomes a
Lean function over an explicit record/state, Python exceptions become
`Except String`, the JSON location-cache document (which may be a JSON array
or a JSON object, since the code creates the file as `[]`) becomes the
`CacheDoc` sum, and the geocoder becomes an oracle function.  Python string
operations (`split`, `strip`, `lower`, `endswith`, `in`) are implemented on
`List Char` by structural recursion so that every definition evaluates inside
the kernel.  Numbers are modelled as exact rationals; the two float table
entries `40*4.33` and `40*52.142` are modelled as the exact decimals they
denote, which no theorem below depends on numerically.
-/

/-! ## Python string primitives -/

/-- `listLeads pat l` is true when `pat` occurs at the very front of `l`
(the check Python performs at each scan position of `in` / `split`). -/
def listLeads : List Char → List Char → Bool
  | [], _ => true
  | _ :: _, [] => false
  | a :: as, b :: bs => a == b && listLeads as bs

/-- First occurrence search: returns the characters before the first
occurrence of `sep` and the characters after it, or `none` when `sep` does
not occur.  This is the scan underlying Python `sep in s` and `s.split(sep)`. -/
def takeDropFirst (sep : List Char) : List Char → Option (List Char × List Char)
  | [] => if listLeads sep [] then some ([], []) else none
  | c :: cs =>
    if listLeads sep (c :: cs) then some ([], (c :: cs).drop sep.length)
    else
      match takeDropFirst sep cs with
      | some (pre, post) => some (c :: pre, post)
      | none => none

/-- Python `sep in s` (substring containment). -/
def strContains (s t : String) : Bool :=
  match takeDropFirst t.data s.data with
  | some _ => true
  | none => false

/-- Fuelled splitting loop.  The call sites always pass `l.length` as fuel,
which suffices because every step strictly shrinks the list when the
separator is nonempty (all separators in this module are nonempty), so the
fuel-zero branch is never the one that terminates a real split. -/
def splitListAux (sep : List Char) : Nat → List Char → List (List Char)
  | 0, l => [l]
  | fuel + 1, l =>
    match takeDropFirst sep l with
    | none => [l]
    | some (pre, post) => pre :: splitListAux sep fuel post

/-- Python `s.split(sep)` for a nonempty separator: split on every
non-overlapping occurrence, left to right, keeping empty pieces. -/
def pySplit (s sep : String) : List String :=
  (splitListAux sep.data s.data.length s.data).map (fun cs => String.mk cs)

/-- Drop leading whitespace characters. -/
def dropLeadingWs : List Char → List Char
  | [] => []
  | c :: cs => if c.isWhitespace then dropLeadingWs cs else c :: cs

/-- Python `s.strip()`: drop leading and trailing whitespace. -/
def pyStrip (s : String) : String :=
  String.mk (dropLeadingWs (dropLeadingWs s.data.reverse).reverse)

/-- Python `s.lower()` (ASCII case folding, which covers every string the
module compares). -/
def pyLower (s : String) : String :=
  String.mk (s.data.map Char.toLower)

/-- Python `s.endswith(t)`. -/
def pyEndsWith (s t : String) : Bool :=
  listLeads t.data.reverse s.data.reverse

/-! ## Data model

`Item` carries exactly the record fields the pipeline reads or writes
(§ spec 3); salary numbers are rationals, `none` is JSON `null`. -/

/-- One slot of a stored location triple: latitude/longitude are numbers for
geocoded places, and all three slots are the string "remote" for the
sentinel. -/
inductive Coord where
  | num : ℚ → Coord
  | str : String → Coord
deriving DecidableEq

/-- A cache/record coordinates entry `[lat, lon, address]`. -/
def LocPoint := Coord × Coord × Coord
deriving DecidableEq

/-- The `["remote", "remote", "remote"]` sentinel triple. -/
def sentinel : LocPoint := (Coord.str "remote", Coord.str "remote", Coord.str "remote")

/-- A `status` field value: integer code before normalisation, string label
after. -/
inductive StatusVal where
  | int : Int → StatusVal
  | str : String → StatusVal
deriving DecidableEq

/-- One element of `status_events`; only its `status` key is touched. -/
structure StatusEvent where
  status : StatusVal
deriving DecidableEq

/-- One job-tracker record, restricted to the fields the pipeline uses. -/
structure Item where
  id : String
  job_posting_location : String
  coordinates : List LocPoint
  status_events : List StatusEvent
  salary_low : Option ℚ
  salary_high : Option ℚ
  salary_period : Int
  salary : Option ℚ
deriving DecidableEq

/-! ## Location cache document and geocoder -/

/-- The on-disk location cache document.  `JSONFile.load` creates the file
with `json.dump([], f)`, so the document is either a JSON array (`arr`) or
the JSON object mapping location strings to triples (`obj`). -/
inductive CacheDoc where
  | arr : List LocPoint → CacheDoc
  | obj : (String → Option LocPoint) → CacheDoc

/-- Mapping lookup on a cache document (`none` on an array document, where
the Python dict operations raise instead of answering). -/
def docGet : CacheDoc → String → Option LocPoint
  | CacheDoc.arr _, _ => none
  | CacheDoc.obj m, k => m k

/-- Python dict assignment `m[k] = v`. -/
def dictSet (m : String → Option LocPoint) (k : String) (v : LocPoint) :
    String → Option LocPoint :=
  fun q => if q = k then some v else m q

/-- The external geocoder oracle: `none` models both a raised exception and
a no-match result (the caller treats the two identically). -/
def Geocoder := String → Option (ℚ × ℚ × String)

/-- A geocoder that always fails; used for concrete evaluations. -/
def geoFail : Geocoder := fun _ => none

/-! ## `AddCoordinates` (location resolver), lines 85-143 -/

/--
`AddCoordinates.get_coord` (lines 90-104).  The candidate is stripped; a
candidate whose lowercase form contains "remote" gets the sentinel written
into the cache and returned without touching the geocoder; otherwise a cache
miss geocodes (failure or no-match raises, via the `assert`) and stores the
result.  When the cache document is a JSON array every dict operation on it
raises (`cache[k] = v` is a TypeError, `cache.get(k)` an AttributeError);
the error strings name the Python exception of each raise site.  The
`time.sleep(1)` courtesy delay and the debug log have no data effect and are
not modelled.
-/
def get_coord (location0 : String) (location_cache : CacheDoc)
    (geolocator : Geocoder) : Except String (LocPoint × CacheDoc) :=
  let location := pyStrip location0
  if strContains (pyLower location) "remote" then
    match location_cache with
    | CacheDoc.arr _ => Except.error "TypeError"
    | CacheDoc.obj m =>
      match dictSet m location sentinel location with
      | some v => Except.ok (v, CacheDoc.obj (dictSet m location sentinel))
      | none => Except.error "KeyError"
  else
    match location_cache with
    | CacheDoc.arr _ => Except.error "AttributeError"
    | CacheDoc.obj m =>
      if (m location).isNone then
        match geolocator location with
        | none => Except.error "GeocodeError"
        | some (lat, lon, addr) =>
          match dictSet m location (Coord.num lat, Coord.num lon, Coord.str addr) location with
          | some v =>
            Except.ok (v, CacheDoc.obj (dictSet m location (Coord.num lat, Coord.num lon, Coord.str addr)))
          | none => Except.error "KeyError"
      else
        match m location with
        | some v => Except.ok (v, CacheDoc.obj m)
        | none => Except.error "KeyError"

/-- The delimiter list of `get_all_locations` (line 108), in source order;
the third entry is the mojibake bullet exactly as it appears in the file. -/
def splitter : List String := ["|", ";", "â€¢", " and ", " or "]

/-- The `for spli in splitter: if spli in locations: ... break` loop
(lines 109-112): split on the first delimiter that occurs, or produce `[]`. -/
def firstSplit : List String → String → List String
  | [], _ => []
  | d :: ds, s => if strContains s d then pySplit s d else firstSplit ds s

/--
The `for i in cleaned_locations: if i.endswith(" more"): cleaned_locations.remove(i)`
loop (lines 114-116), with Python list-iterator semantics made explicit: the
iterator holds a bare index `k` into the list being mutated, `remove` erases
the first element equal to the current one, and the index still advances, so
the element that slides into the freed slot is skipped.  The fuel argument
(always called with the initial list length) never runs out before the index
passes the end, because the index grows by one per step while the length
never grows.
-/
def removeMoreAux : Nat → List String → Nat → List String
  | 0, l, _ => l
  | fuel + 1, l, k =>
    if h : k < l.length then
      if pyEndsWith l[k] " more" then removeMoreAux fuel (l.erase l[k]) (k + 1)
      else removeMoreAux fuel l (k + 1)
    else l

/-- `AddCoordinates.get_all_locations` (lines 106-119). -/
def get_all_locations (locations : String) : List String :=
  let cleaned := firstSplit splitter locations
  let cleaned := cleaned.map pyStrip
  let cleaned := removeMoreAux cleaned.length cleaned 0
  if cleaned.isEmpty then [locations] else cleaned

/--
The inner candidate loop of `AddCoordinates.process` (lines 131-141): each
candidate is resolved inside `try`; a raising candidate is logged, appended
to `errors`, and skipped, leaving the cache as it was (every raise site in
`get_coord` precedes its cache write), and the remaining candidates are
still processed.
-/
def resolveCands (geo : Geocoder) : List String → CacheDoc → List LocPoint × CacheDoc
  | [], c => ([], c)
  | l :: ls, c =>
    match get_coord l c geo with
    | Except.ok (p, c2) =>
      let r := resolveCands geo ls c2
      (p :: r.1, r.2)
    | Except.error _ => resolveCands geo ls c

/-- The per-record body of `AddCoordinates.process` (lines 126-141):
`item["coordinates"]` becomes the successfully resolved points, in candidate
order. -/
def addCoordsItem (geo : Geocoder) (c : CacheDoc) (item : Item) : Item × CacheDoc :=
  let r := resolveCands geo (get_all_locations item.job_posting_location) c
  ({ item with coordinates := r.1 }, r.2)

/-- `AddCoordinates.process` (lines 121-143) over the whole batch, given the
cache document its own `LOCATION_CACHE.load()` returned.  The second
component is the cache value the method passes to the single
`LOCATION_CACHE.save(location_cache)` call at line 143. -/
def addCoordinatesProcess (geo : Geocoder) (items : List Item) (c : CacheDoc) :
    List Item × CacheDoc :=
  match items with
  | [] => ([], c)
  | it :: rest =>
    let r := addCoordsItem geo c it
    let rr := addCoordinatesProcess geo rest r.2
    (r.1 :: rr.1, rr.2)

/-! ## `StatusEvents` (status normalizer), lines 146-161 -/

/-- The if/elif chain of `StatusEvents.process` on one `status` value.  A
string label never equals an integer literal in Python, so labels fall
through every branch unchanged, as do unrecognised integer codes. -/
def statusMap (s : StatusVal) : StatusVal :=
  match s with
  | StatusVal.int n =>
    if n = 1 then StatusVal.str "saved"
    else if n = 2 then StatusVal.str "applied"
    else if n = 11 then StatusVal.str "screen"
    else if n = 23 then StatusVal.str "rejected"
    else StatusVal.int n
  | StatusVal.str t => StatusVal.str t

/-- The per-event mutation of `StatusEvents.process`. -/
def statusEventMap (ev : StatusEvent) : StatusEvent :=
  { ev with status := statusMap ev.status }

/-- The per-record body of `StatusEvents.process`. -/
def statusItemMap (it : Item) : Item :=
  { it with status_events := it.status_events.map statusEventMap }

/-- `StatusEvents.process` (lines 151-161) over the batch. -/
def statusEventsProcess (items : List Item) : List Item :=
  items.map statusItemMap

/-! ## `ProcessSalary` (salary normalizer), lines 165-190 -/

/-- Python truthiness of a possibly-null number: `None` and `0` are falsy. -/
def pyTruthy : Option ℚ → Bool
  | none => false
  | some x => x != 0

/-- The `sal` derivation (lines 173-178): both fields truthy takes the
floor-averaged pair (`//` is floor division); otherwise `low or high`
takes the first truthy of the two; otherwise `sal` stays `None`.  The
`getD 0` defaults are unreachable because the guard forces both fields to
be `some`. -/
def derivedSal (low high : Option ℚ) : Option ℚ :=
  if pyTruthy low && pyTruthy high then
    some ((⌊(low.getD 0 + high.getD 0) / 2⌋ : ℤ) : ℚ)
  else if pyTruthy low || pyTruthy high then
    (if pyTruthy low then low else high)
  else none

/-- The `hour_map` table (line 171): `{2: 40, 3: 40*4.33, 4: 40*52.142}` with
`none` for a missing key (a lookup of a missing key raises KeyError). -/
def hour_map (p : Int) : Option ℚ :=
  if p = 2 then some 40
  else if p = 3 then some (40 * 4.33)
  else if p = 4 then some (40 * 52.142)
  else none

/-- The per-record body of `ProcessSalary.process` (lines 172-190).  A falsy
`sal` (`None` or `0`) skips the conversion block, so `salary_period` is then
never looked up; a truthy `sal` with `salary_period > 1` floor-divides by
the table entry and raises KeyError when the entry is missing.  The
magnitude warning at lines 180-183 only logs and is not modelled. -/
def processSalaryItem (item : Item) : Except String Item :=
  let sal := derivedSal item.salary_low item.salary_high
  match sal with
  | some s =>
    if s != 0 then
      if item.salary_period > 1 then
        match hour_map item.salary_period with
        | none => Except.error "KeyError"
        | some h => Except.ok { item with salary := some ((⌊s / h⌋ : ℤ) : ℚ) }
      else Except.ok { item with salary := some s }
    else Except.ok { item with salary := some s }
  | none => Except.ok { item with salary := none }

/-- `ProcessSalary.process` over the batch: the loop stops at the first
raising record, aborting the batch. -/
def processSalary : List Item → Except String (List Item)
  | [] => Except.ok []
  | it :: rest =>
    match processSalaryItem it with
    | Except.error e => Except.error e
    | Except.ok it2 =>
      match processSalary rest with
      | Except.error e => Except.error e
      | Except.ok rest2 => Except.ok (it2 :: rest2)

/-- Modelled from the spec: the salary derivation of §4.4 read literally,
where "present" means non-null, so a present zero still participates in the
average.  Used only to compare the code behaviour against the spec text. -/
def specDerivedSal (low high : Option ℚ) : Option ℚ :=
  match low, high with
  | some l, some h => some ((⌊(l + h) / 2⌋ : ℤ) : ℚ)
  | some l, none => some l
  | none, some h => some h
  | none, none => none

/-! ## `JSONFile` and the orchestrator (`main`), lines 32-66 and 208-217 -/

/-- `JSONFile.load` (lines 39-44) for a record file: an absent file is
created holding the empty JSON array, then read back. -/
def jsonLoad : Option (List Item) → List Item
  | none => []
  | some d => d

/-- `JSONFile.load` for the location-cache file: the freshly created
document is the empty JSON *array*, not an object. -/
def jsonLoadCache : Option CacheDoc → CacheDoc
  | none => CacheDoc.arr []
  | some d => d

/-- The content `JSONFile.save(data)` (lines 46-54) writes for a record
file whose in-memory `self.data` is `selfData`: `json.dump(data or
self.data, f)`, and an empty `data` list is falsy, so it falls back to
`self.data`. -/
def jsonSave (selfData data : List Item) : List Item :=
  if data.isEmpty then selfData else data

/-- `main(from_path, to_path)` (lines 208-217): load the raw file, run
AddCoordinates, StatusEvents and ProcessSalary, then write the result
through a fresh `JSONFile(to_path)` (whose `self.data` is the prior content
of the destination file).  The produced value is the content the destination
file holds afterwards, or the propagated exception. -/
def runFullPipeline (rawFile destFile : Option (List Item)) (geo : Geocoder)
    (cacheDoc : CacheDoc) : Except String (List Item) :=
  let data := jsonLoad rawFile
  let data := (addCoordinatesProcess geo data cacheDoc).1
  let data := statusEventsProcess data
  match processSalary data with
  | Except.error e => Except.error e
  | Except.ok data2 => Except.ok (jsonSave (jsonLoad destFile) data2)

/-! ## Concrete items used in closed statements -/

/-- A plain record with no salary data and location "NYC". -/
def item0 : Item := ⟨"1", "NYC", [], [], none, none, 1, none⟩

/-- Salary 200-400 with the unknown period code 0. -/
def itemC3c : Item := ⟨"c3", "", [], [], some 200, some 400, 0, none⟩

/-- Salary 200-400 with the unknown period code 7. -/
def itemC3w : Item := ⟨"c3w", "", [], [], some 200, some 400, 7, none⟩

/-- Annual salary range whose low bound is the (falsy) number 0. -/
def itemC4c : Item := ⟨"c4", "", [], [], some 0, some 50, 1, none⟩

/-- Annual salary range 100-201. -/
def itemC4w : Item := ⟨"c4w", "", [], [], some 100, some 201, 1, none⟩

/-- Hourly salary range whose low bound is the (falsy) number 0. -/
def itemC9c : Item := ⟨"c9", "", [], [], some 0, some 80, 2, none⟩

/-- Hourly salary with only a low bound. -/
def itemC9w : Item := ⟨"c9w", "", [], [], some 120, none, 2, none⟩

/-- A record whose raw location is the single candidate "Remote". -/
def itemRemote : Item := ⟨"r", "Remote", [], [], none, none, 1, none⟩

/-- An empty mapping cache. -/
def emptyCache : CacheDoc := CacheDoc.obj fun _ => none

/-! ## Helper lemmas -/

theorem statusMap_idem (s : StatusVal) : statusMap (statusMap s) = statusMap s := by
  cases s with
  | str t => rfl
  | int n =>
    simp only [statusMap]
    split_ifs <;> simp [statusMap, *]

theorem statusEventMap_idem (ev : StatusEvent) :
    statusEventMap (statusEventMap ev) = statusEventMap ev := by
  simp [statusEventMap, statusMap_idem]

theorem statusItemMap_idem (it : Item) :
    statusItemMap (statusItemMap it) = statusItemMap it := by
  simp only [statusItemMap, List.map_map]
  have h : statusEventMap ∘ statusEventMap = statusEventMap := funext statusEventMap_idem
  rw [h]

/-! ## Claim theorems -/

/-- C7: the status normalizer is idempotent — a second `StatusEvents` pass
leaves every `status` field exactly as the first pass left it, because
mapped string labels no longer compare equal to the integer codes 1/2/11/23;
moreover an integer code outside that table is left as its original integer
value. -/
theorem statusEvents_idempotent :
    (∀ items, statusEventsProcess (statusEventsProcess items) = statusEventsProcess items)
    ∧ (∀ n : Int, n = 1 ∨ n = 2 ∨ n = 11 ∨ n = 23
        ∨ statusMap (StatusVal.int n) = StatusVal.int n) := by
  constructor
  · intro items
    simp only [statusEventsProcess, List.map_map]
    have h : statusItemMap ∘ statusItemMap = statusItemMap := funext statusItemMap_idem
    rw [h]
  · intro n
    by_cases h1 : n = 1
    · exact Or.inl h1
    by_cases h2 : n = 2
    · exact Or.inr (Or.inl h2)
    by_cases h11 : n = 11
    · exact Or.inr (Or.inr (Or.inl h11))
    by_cases h23 : n = 23
    · exact Or.inr (Or.inr (Or.inr (Or.inl h23)))
    · exact Or.inr (Or.inr (Or.inr (Or.inr (by simp [statusMap, h1, h2, h11, h23]))))

/-- C1 (failing evaluation): with an empty raw file and a destination file
whose prior content is the one-record list `[item0]`, the full pipeline
finishes without error but rewrites the destination with its *prior*
content instead of the empty array the spec promises — `JSONFile.save`
receives the empty list, which is falsy, and falls back to `self.data`. -/
theorem pipeline_empty_raw_keeps_dest :
    runFullPipeline (some []) (some [item0]) geoFail emptyCache = Except.ok [item0]
    ∧ [item0] ≠ ([] : List Item) :=
  ⟨rfl, by simp⟩

/-- C3 (counterexample): the period code 0 is outside {1,2,3,4}, yet a record
with a derived salary and `salary_period = 0` is processed without any error
— `salary_period > 1` is false, so the conversion-table lookup never
happens and the derived value 300 is stored unconverted. -/
theorem processSalary_period0_passthrough :
    itemC3c.salary_period = 0
    ∧ processSalaryItem itemC3c = Except.ok { itemC3c with salary := some 300 }
    ∧ processSalary [itemC3c] = Except.ok [{ itemC3c with salary := some 300 }] := by
  refine ⟨rfl, ?_, ?_⟩
  · norm_num [processSalaryItem, derivedSal, pyTruthy, itemC3c]
  · norm_num [processSalary, processSalaryItem, derivedSal, pyTruthy, itemC3c]

/-- C3 (amended): for every record with a derived *nonzero* salary value and
a `salary_period` code greater than 1 that is not 2, 3 or 4, the conversion
table lookup raises (KeyError) and the batch aborts; period codes ≤ 1 are
never looked up and pass the value through unconverted. -/
theorem processSalary_unknown_period_aborts (item : Item)
    (hs : pyTruthy (derivedSal item.salary_low item.salary_high) = true)
    (hp : 1 < item.salary_period)
    (h2 : item.salary_period ≠ 2) (h3 : item.salary_period ≠ 3)
    (h4 : item.salary_period ≠ 4) :
    processSalaryItem item = Except.error "KeyError"
    ∧ processSalary [item] = Except.error "KeyError" := by
  have hm : hour_map item.salary_period = none := by simp [hour_map, h2, h3, h4]
  obtain ⟨s, hsal, hs0⟩ : ∃ s, derivedSal item.salary_low item.salary_high = some s
      ∧ (s != 0) = true := by
    cases hd : derivedSal item.salary_low item.salary_high with
    | none => rw [hd] at hs; simp [pyTruthy] at hs
    | some s => exact ⟨s, rfl, by rw [hd] at hs; simpa [pyTruthy] using hs⟩
  have h1 : processSalaryItem item = Except.error "KeyError" := by
    simp only [processSalaryItem, hsal]
    simp [hs0, hp, hm]
  exact ⟨h1, by simp [processSalary, h1]⟩

/-- Witness for C3 (amended) at the concrete record `itemC3w`
(salary 200-400, period code 7). -/
theorem processSalary_unknown_period_aborts_witness :
    pyTruthy (derivedSal itemC3w.salary_low itemC3w.salary_high) = true
    ∧ 1 < itemC3w.salary_period
    ∧ processSalary [itemC3w] = Except.error "KeyError" := by
  refine ⟨by norm_num [derivedSal, pyTruthy, itemC3w], by norm_num [itemC3w], ?_⟩
  exact (processSalary_unknown_period_aborts itemC3w
    (by norm_num [derivedSal, pyTruthy, itemC3w]) (by norm_num [itemC3w])
    (by norm_num [itemC3w]) (by norm_num [itemC3w]) (by norm_num [itemC3w])).2

/-- C4 (counterexample): `salary_low = 0` and `salary_high = 50` are both
present numbers and the period is annual, yet the normalizer stores 50, not
`floor((0+50)/2) = 25` — the truthiness test `if salary_low and salary_high`
treats the number 0 as absent. -/
theorem salary_zero_low_not_averaged :
    itemC4c.salary_low = some 0 ∧ itemC4c.salary_high = some 50
    ∧ itemC4c.salary_period = 1
    ∧ processSalaryItem itemC4c = Except.ok { itemC4c with salary := some 50 }
    ∧ ((50 : ℚ) ≠ ((⌊((0 : ℚ) + 50) / 2⌋ : ℤ) : ℚ)) := by
  refine ⟨rfl, rfl, rfl, ?_, by norm_num⟩
  norm_num [processSalaryItem, derivedSal, pyTruthy, itemC4c]

/-- C4 (amended): for every record whose `salary_low = L` and
`salary_high = H` are both present and *nonzero* and whose
`salary_period = 1`, the normalizer sets `salary` to `floor((L+H)/2)`. -/
theorem salary_period1_average (item : Item) (L H : ℚ)
    (hl : item.salary_low = some L) (hh : item.salary_high = some H)
    (hL : L ≠ 0) (hH : H ≠ 0) (hp : item.salary_period = 1) :
    processSalaryItem item = Except.ok { item with salary := some ((⌊(L + H) / 2⌋ : ℤ) : ℚ) } := by
  have hsal : derivedSal item.salary_low item.salary_high
      = some ((⌊(L + H) / 2⌋ : ℤ) : ℚ) := by
    simp [derivedSal, hl, hh, pyTruthy, hL, hH]
  simp only [processSalaryItem, hsal]
  by_cases hz : ((⌊(L + H) / 2⌋ : ℤ) : ℚ) = 0
  · simp [hz]
  · simp [hz, hp]

/-- Witness for C4 (amended) at the concrete record `itemC4w`
(salary 100-201, annual): the stored salary is `floor(301/2) = 150`. -/
theorem salary_period1_average_witness :
    itemC4w.salary_low = some 100 ∧ itemC4w.salary_high = some 201
    ∧ (100 : ℚ) ≠ 0 ∧ (201 : ℚ) ≠ 0 ∧ itemC4w.salary_period = 1
    ∧ processSalaryItem itemC4w = Except.ok { itemC4w with salary := some 150 } := by
  refine ⟨rfl, rfl, by norm_num, by norm_num, rfl, ?_⟩
  have h := salary_period1_average itemC4w 100 201 rfl rfl (by norm_num) (by norm_num) rfl
  rw [h]
  norm_num

/-- C9 (counterexample): for `salary_low = 0`, `salary_high = 80`,
`salary_period = 2`, the spec's derivation ("both present → floor average")
gives the base salary S = 40 and hence `floor(S/40) = 1`, but the code
derives 80 (zero is falsy, so the `or` branch runs) and stores
`floor(80/40) = 2`. -/
theorem salary_hourly_spec_divergence :
    specDerivedSal itemC9c.salary_low itemC9c.salary_high = some 40
    ∧ itemC9c.salary_period = 2
    ∧ processSalaryItem itemC9c = Except.ok { itemC9c with salary := some 2 }
    ∧ ((2 : ℚ) ≠ ((⌊(40 : ℚ) / 40⌋ : ℤ) : ℚ)) := by
  refine ⟨by norm_num [specDerivedSal, itemC9c], rfl, ?_, by norm_num⟩
  norm_num [processSalaryItem, derivedSal, pyTruthy, hour_map, itemC9c]

/-- C9 (amended): for every record with `salary_period = 2` and a base
salary `S` derived the way the code derives it (zero is treated as absent:
both bounds nonzero → floor average, otherwise the first truthy bound), the
normalizer sets `salary` to `floor(S/40)` (a derived `S = 0` skips the
conversion but `0 = floor(0/40)` regardless). -/
theorem salary_hourly_div40 (item : Item) (S : ℚ)
    (hS : derivedSal item.salary_low item.salary_high = some S)
    (hp : item.salary_period = 2) :
    processSalaryItem item = Except.ok { item with salary := some ((⌊S / 40⌋ : ℤ) : ℚ) } := by
  simp only [processSalaryItem, hS]
  by_cases h0 : S = 0
  · subst h0; norm_num
  · have hb : (S != 0) = true := bne_iff_ne.mpr h0
    simp [hb, hp, hour_map]

/-- Witness for C9 (amended) at the concrete record `itemC9w`
(low 120, no high, hourly): the stored salary is `floor(120/40) = 3`. -/
theorem salary_hourly_div40_witness :
    derivedSal itemC9w.salary_low itemC9w.salary_high = some 120
    ∧ itemC9w.salary_period = 2
    ∧ processSalaryItem itemC9w = Except.ok { itemC9w with salary := some 3 } := by
  refine ⟨by norm_num [derivedSal, pyTruthy, itemC9w], rfl, ?_⟩
  have h := salary_hourly_div40 itemC9w 120
    (by norm_num [derivedSal, pyTruthy, itemC9w]) rfl
  rw [h]
  norm_num

/-! ## Cache helper lemmas -/

theorem dictSet_self (m : String → Option LocPoint) (k : String) (v : LocPoint) :
    dictSet m k v k = some v := by
  simp [dictSet]

theorem dictSet_isSome (m : String → Option LocPoint) (k : String) (v : LocPoint)
    (q : String) (h : (m q).isSome = true) : (dictSet m k v q).isSome = true := by
  by_cases hq : q = k <;> simp [dictSet, hq, h]

theorem get_coord_superset (loc : String) (c : CacheDoc) (geo : Geocoder)
    (p : LocPoint) (c2 : CacheDoc) (h : get_coord loc c geo = Except.ok (p, c2))
    (k : String) (hk : (docGet c k).isSome = true) : (docGet c2 k).isSome = true := by
  cases c with
  | arr l =>
    simp [docGet] at hk
  | obj m =>
    simp only [get_coord] at h
    split at h
    · rw [dictSet_self] at h
      simp only [Except.ok.injEq, Prod.mk.injEq] at h
      rw [← h.2]
      simp only [docGet] at hk ⊢
      exact dictSet_isSome m (pyStrip loc) sentinel k hk
    · split at h
      · split at h
        · exact absurd h (by simp)
        · rw [dictSet_self] at h
          simp only [Except.ok.injEq, Prod.mk.injEq] at h
          rw [← h.2]
          simp only [docGet] at hk ⊢
          exact dictSet_isSome m (pyStrip loc) _ k hk
      · split at h
        · simp only [Except.ok.injEq, Prod.mk.injEq] at h
          rw [← h.2]
          exact hk
        · exact absurd h (by simp)

theorem resolveCands_superset (geo : Geocoder) (ls : List String) (c : CacheDoc)
    (k : String) (hk : (docGet c k).isSome = true) :
    (docGet (resolveCands geo ls c).2 k).isSome = true := by
  induction ls generalizing c with
  | nil => simpa [resolveCands]
  | cons l ls ih =>
    simp only [resolveCands]
    cases hgc : get_coord l c geo with
    | ok pc =>
      obtain ⟨p, c2⟩ := pc
      simpa using ih c2 (get_coord_superset l c geo p c2 hgc k hk)
    | error e => simpa using ih c hk

theorem addCoordinatesProcess_superset (geo : Geocoder) (items : List Item)
    (c : CacheDoc) (k : String) (hk : (docGet c k).isSome = true) :
    (docGet (addCoordinatesProcess geo items c).2 k).isSome = true := by
  induction items generalizing c with
  | nil => simpa [addCoordinatesProcess]
  | cons it items ih =>
    simp only [addCoordinatesProcess, addCoordsItem]
    exact ih _ (resolveCands_superset geo _ c k hk)

theorem addCoordinatesProcess_length (geo : Geocoder) (items : List Item)
    (c : CacheDoc) : (addCoordinatesProcess geo items c).1.length = items.length := by
  induction items generalizing c with
  | nil => simp [addCoordinatesProcess]
  | cons it items ih => simp [addCoordinatesProcess, ih]

/-! ## Coordinate-pass claim theorems -/

/-- C5: a candidate whose resolution raises (geocoder failure or any other
exception inside `get_coord`) is skipped without touching the cache and
without aborting anything — the remaining candidates of the record and the
remaining records of the batch are still processed (one output record per
input record, always). -/
theorem addCoordinates_skips_failures :
    (∀ geo items c, (addCoordinatesProcess geo items c).1.length = items.length)
    ∧ (∀ geo loc rest c e, get_coord loc c geo = Except.error e →
        resolveCands geo (loc :: rest) c = resolveCands geo rest c) := by
  constructor
  · exact fun geo items c => addCoordinatesProcess_length geo items c
  · intro geo loc rest c e h
    simp only [resolveCands, h]

/-- Witness for C5 at a concrete failing candidate: "Boston" against the
array-shaped cache raises, and the batch loop then resolves the remaining
candidate list exactly as if "Boston" had not been there. -/
theorem addCoordinates_skips_failures_witness :
    get_coord "Boston" (CacheDoc.arr []) geoFail = Except.error "AttributeError"
    ∧ resolveCands geoFail ["Boston", "Remote"] (CacheDoc.arr [])
        = resolveCands geoFail ["Remote"] (CacheDoc.arr []) :=
  ⟨rfl, addCoordinates_skips_failures.2 geoFail "Boston" ["Remote"] (CacheDoc.arr [])
    "AttributeError" rfl⟩

/-- C6: a candidate whose (trimmed, lowercased) text contains "remote" makes
`get_coord` return the sentinel triple with the cache extended so that the
trimmed candidate maps to the sentinel, and the result is the same for every
geocoder (the geocoder is never consulted); concretely, the single-candidate
record "Remote" gains exactly one coordinates entry, the sentinel, and the
cache afterwards maps "Remote" to the sentinel. -/
theorem get_coord_remote_sentinel (loc : String) (m : String → Option LocPoint)
    (geo : Geocoder) (h : strContains (pyLower (pyStrip loc)) "remote" = true) :
    get_coord loc (CacheDoc.obj m) geo
      = Except.ok (sentinel, CacheDoc.obj (dictSet m (pyStrip loc) sentinel))
    ∧ (∀ geo2, get_coord loc (CacheDoc.obj m) geo2 = get_coord loc (CacheDoc.obj m) geo)
    ∧ dictSet m (pyStrip loc) sentinel (pyStrip loc) = some sentinel
    ∧ (addCoordsItem geoFail emptyCache itemRemote).1.coordinates = [sentinel]
    ∧ docGet (addCoordsItem geoFail emptyCache itemRemote).2 "Remote" = some sentinel := by
  have hmain : ∀ g : Geocoder, get_coord loc (CacheDoc.obj m) g
      = Except.ok (sentinel, CacheDoc.obj (dictSet m (pyStrip loc) sentinel)) := by
    intro g
    simp only [get_coord, h, if_true, dictSet_self]
  exact ⟨hmain geo, fun geo2 => (hmain geo2).trans (hmain geo).symm,
    dictSet_self m (pyStrip loc) sentinel, by decide, by decide⟩

/-- Witness for C6 at the candidate "Remote" (capitalised, so the
case-insensitive containment hypothesis is exercised) and the empty mapping
cache. -/
theorem get_coord_remote_sentinel_witness :
    strContains (pyLower (pyStrip "Remote")) "remote" = true
    ∧ get_coord "Remote" (CacheDoc.obj fun _ => none) geoFail
        = Except.ok (sentinel,
            CacheDoc.obj (dictSet (fun _ => none) (pyStrip "Remote") sentinel)) :=
  ⟨by decide, (get_coord_remote_sentinel "Remote" (fun _ => none) geoFail (by decide)).1⟩

/-- C8: the location cache is purely additive — a successful `get_coord`
call never removes a key (every key present before is present after), and a
whole coordinate pass hands `LOCATION_CACHE.save` (called once, line 143) a
cache document whose key set contains every key of the loaded document. -/
theorem location_cache_additive :
    (∀ loc c geo p c2 k, get_coord loc c geo = Except.ok (p, c2) →
        (docGet c k).isSome = true → (docGet c2 k).isSome = true)
    ∧ (∀ geo items c k, (docGet c k).isSome = true →
        (docGet (addCoordinatesProcess geo items c).2 k).isSome = true) :=
  ⟨fun loc c geo p c2 k h hk => get_coord_superset loc c geo p c2 h k hk,
   fun geo items c k hk => addCoordinatesProcess_superset geo items c k hk⟩

/-- A one-entry mapping cache used by the C8 witness. -/
def cacheSeattle : CacheDoc :=
  CacheDoc.obj fun k => if k = "Seattle" then some sentinel else none

/-- Witness for C8: a pass over one record (whose candidate "Remote"
succeeds and extends the cache) keeps the pre-existing key "Seattle". -/
theorem location_cache_additive_witness :
    (docGet cacheSeattle "Seattle").isSome = true
    ∧ (docGet (addCoordinatesProcess geoFail [itemRemote] cacheSeattle).2 "Seattle").isSome
        = true :=
  ⟨by decide, location_cache_additive.2 geoFail [itemRemote] cacheSeattle "Seattle" (by decide)⟩

/-- C10: an absent cache file is created holding the empty JSON *array*, and
against an array-shaped cache document every non-remote candidate fails in
`get_coord` (the `cache.get` attribute lookup on a list raises before any
geocoding can happen — the outcome is the same for every geocoder), so the
batch loop catches the error and skips the candidate. -/
theorem cache_array_breaks_get_coord :
    jsonLoadCache none = CacheDoc.arr []
    ∧ (∀ loc l geo rest, strContains (pyLower (pyStrip loc)) "remote" = false →
        (get_coord loc (CacheDoc.arr l) geo = Except.error "AttributeError"
         ∧ (∀ geo2, get_coord loc (CacheDoc.arr l) geo2
              = get_coord loc (CacheDoc.arr l) geo)
         ∧ resolveCands geo (loc :: rest) (CacheDoc.arr l)
              = resolveCands geo rest (CacheDoc.arr l))) := by
  refine ⟨rfl, fun loc l geo rest h => ?_⟩
  have herr : ∀ g : Geocoder, get_coord loc (CacheDoc.arr l) g
      = Except.error "AttributeError" := by
    intro g
    simp only [get_coord, h]
    simp
  exact ⟨herr geo, fun geo2 => (herr geo2).trans (herr geo).symm,
    by simp only [resolveCands, herr geo]⟩

/-- Witness for C10 at the non-remote candidate "Boston" against the freshly
created (array) cache document. -/
theorem cache_array_breaks_get_coord_witness :
    strContains (pyLower (pyStrip "Boston")) "remote" = false
    ∧ get_coord "Boston" (CacheDoc.arr []) geoFail = Except.error "AttributeError"
    ∧ resolveCands geoFail ["Boston"] (CacheDoc.arr [])
        = resolveCands geoFail [] (CacheDoc.arr []) :=
  ⟨by decide,
   (cache_array_breaks_get_coord.2 "Boston" [] geoFail [] (by decide)).1,
   (cache_array_breaks_get_coord.2 "Boston" [] geoFail [] (by decide)).2.2⟩

/-! ## The " more" filter loop (claim C2) -/

theorem removeMoreAux_id (fuel : Nat) (l : List String) (k : Nat)
    (h : l.countP (fun s => pyEndsWith s " more") = 0) :
    removeMoreAux fuel l k = l := by
  induction fuel generalizing l k with
  | zero => rfl
  | succ fuel ih =>
    simp only [removeMoreAux]
    split
    · next hk =>
      have hmem : l[k] ∈ l := List.getElem_mem hk
      have hfalse : pyEndsWith l[k] " more" = false := by
        have := List.countP_eq_zero.mp h _ hmem
        simpa using this
      rw [if_neg (by simp [hfalse])]
      exact ih l (k + 1) h
    · rfl

theorem removeMoreAux_clears (fuel : Nat) (l : List String) (k : Nat)
    (hfuel : l.length ≤ fuel + k)
    (hcount : l.countP (fun s => pyEndsWith s " more") ≤ 1)
    (hpre : (l.take k).countP (fun s => pyEndsWith s " more") = 0) :
    (removeMoreAux fuel l k).countP (fun s => pyEndsWith s " more") = 0
    ∧ l.length - 1 ≤ (removeMoreAux fuel l k).length := by
  induction fuel generalizing l k with
  | zero =>
    have hlk : l.length ≤ k := by simpa using hfuel
    rw [List.take_of_length_le hlk] at hpre
    exact ⟨hpre, Nat.sub_le _ _⟩
  | succ fuel ih =>
    simp only [removeMoreAux]
    split
    · next hk =>
      by_cases hp : pyEndsWith l[k] " more" = true
      · rw [if_pos hp]
        have hmem : l[k] ∈ l := List.getElem_mem hk
        obtain ⟨l1, l2, hnot, hleq, herase⟩ := List.exists_erase_eq hmem
        have hcnt : l1.countP (fun s => pyEndsWith s " more") = 0
            ∧ l2.countP (fun s => pyEndsWith s " more") = 0 := by
          rw [hleq, List.countP_append, List.countP_cons] at hcount
          simp only [hp, if_true] at hcount
          omega
        have hzero : (l.erase l[k]).countP (fun s => pyEndsWith s " more") = 0 := by
          rw [herase, List.countP_append, hcnt.1, hcnt.2]
        rw [removeMoreAux_id fuel _ (k + 1) hzero]
        refine ⟨hzero, ?_⟩
        rw [List.length_erase_of_mem hmem]
      · have hfalse : pyEndsWith l[k] " more" = false := by
          simpa using hp
        rw [if_neg (by simp [hfalse])]
        refine ih l (k + 1) (by omega) hcount ?_
        rw [List.take_succ, List.getElem?_eq_getElem hk, List.countP_append, hpre]
        simp [List.countP_cons, hfalse]
    · next hk =>
      have hlk : l.length ≤ k := Nat.le_of_not_lt hk
      rw [List.take_of_length_le hlk] at hpre
      exact ⟨hpre, Nat.sub_le _ _⟩

theorem splitListAux_length_pos (sep : List Char) (fuel : Nat) (l : List Char) :
    1 ≤ (splitListAux sep fuel l).length := by
  cases fuel with
  | zero => simp [splitListAux]
  | succ fuel =>
    simp only [splitListAux]
    split <;> simp

theorem pySplit_length_two (s d : String) (hd : d.data ≠ [])
    (h : strContains s d = true) : 2 ≤ (pySplit s d).length := by
  obtain ⟨pr, hpr⟩ : ∃ pr, takeDropFirst d.data s.data = some pr := by
    cases heq : takeDropFirst d.data s.data with
    | some pr => exact ⟨pr, rfl⟩
    | none => rw [strContains, heq] at h; exact absurd h (by simp)
  cases hsd : s.data with
  | nil =>
    rw [hsd] at hpr
    cases hdd : d.data with
    | nil => exact absurd hdd hd
    | cons c cs => rw [hdd] at hpr; simp [takeDropFirst, listLeads] at hpr
  | cons c cs =>
    rw [hsd] at hpr
    obtain ⟨pre, post⟩ := pr
    simp only [pySplit, List.length_map, hsd, List.length_cons, splitListAux, hpr]
    simpa using splitListAux_length_pos d.data cs.length post

theorem firstSplit_length_two (ds : List String) (s : String)
    (hne : ∀ d ∈ ds, d.data ≠ [])
    (h : ∃ d ∈ ds, strContains s d = true) :
    2 ≤ (firstSplit ds s).length := by
  induction ds with
  | nil => simp at h
  | cons d ds ih =>
    simp only [firstSplit]
    by_cases hc : strContains s d = true
    · rw [if_pos hc]
      exact pySplit_length_two s d (hne d (by simp)) hc
    · rw [if_neg hc]
      refine ih (fun x hx => hne x (by simp [hx])) ?_
      obtain ⟨d0, hd0, hcd0⟩ := h
      rcases List.mem_cons.mp hd0 with rfl | hmem
      · exact absurd hcd0 hc
      · exact ⟨d0, hmem, hcd0⟩

/-- C2 (counterexample): the delimiter "|" occurs in "a more|b more", so
both candidates come from splitting, both end in " more", yet the returned
list still contains one of them — removing "a more" shifts "b more" into
the slot the iterator has already passed. -/
theorem get_all_locations_more_counterexample :
    strContains "a more|b more" "|" = true
    ∧ get_all_locations "a more|b more" = ["b more"]
    ∧ pyEndsWith "b more" " more" = true :=
  ⟨by decide, by decide, by decide⟩

/-- C2 (amended): when some delimiter occurs in the location string and at
most one of the split-and-trimmed candidates ends in " more", no returned
candidate ends in " more" (two or more such candidates can leave survivors,
because `list.remove` during iteration skips the element that slides into
the freed slot); the documented example "New York | Boston | 2 more" yields
exactly ["New York", "Boston"]. -/
theorem get_all_locations_drops_more (locations : String)
    (hd : ∃ d ∈ splitter, strContains locations d = true)
    (hc : ((firstSplit splitter locations).map pyStrip).countP
        (fun s => pyEndsWith s " more") ≤ 1) :
    (∀ c ∈ get_all_locations locations, pyEndsWith c " more" = false)
    ∧ get_all_locations "New York | Boston | 2 more" = ["New York", "Boston"] := by
  constructor
  · have hne : ∀ d ∈ splitter, d.data ≠ [] := by decide
    have hlen : 2 ≤ ((firstSplit splitter locations).map pyStrip).length := by
      simpa using firstSplit_length_two splitter locations hne hd
    obtain ⟨hzero, hge⟩ := removeMoreAux_clears
      ((firstSplit splitter locations).map pyStrip).length
      ((firstSplit splitter locations).map pyStrip) 0 (by omega) hc (by simp)
    have hnonnil : removeMoreAux ((firstSplit splitter locations).map pyStrip).length
        ((firstSplit splitter locations).map pyStrip) 0 ≠ [] := by
      intro hnil
      rw [hnil] at hge
      simp only [List.length_nil] at hge
      omega
    have hres : get_all_locations locations
        = removeMoreAux ((firstSplit splitter locations).map pyStrip).length
            ((firstSplit splitter locations).map pyStrip) 0 := by
      simp only [get_all_locations]
      rw [if_neg (by simpa [List.isEmpty_iff] using hnonnil)]
    intro c hcmem
    rw [hres] at hcmem
    simpa using List.countP_eq_zero.mp hzero c hcmem
  · decide

/-- Witness for C2 (amended) at the documented example, whose only
" more"-suffixed candidate is "2 more". -/
theorem get_all_locations_drops_more_witness :
    (∃ d ∈ splitter, strContains "New York | Boston | 2 more" d = true)
    ∧ ((firstSplit splitter "New York | Boston | 2 more").map pyStrip).countP
        (fun s => pyEndsWith s " more") ≤ 1
    ∧ (∀ c ∈ get_all_locations "New York | Boston | 2 more",
        pyEndsWith c " more" = false) :=
  ⟨by decide, by decide,
   (get_all_locations_drops_more "New York | Boston | 2 more" (by decide) (by decide)).1⟩
